import Mathlib

/-!
Shallow embedding of the configuration parsing and rendering pipeline of the
software-page generator (`src/templates/page_template.py` and `src/build.py`).

Python text values are embedded as Lean `String`s; the Python string methods
the source uses (`strip`, `split`, `startswith`, `endswith`, `in`, `replace`,
slicing) are reimplemented below over `String.data` (`List Char`), following
Python semantics.  The open dictionary `software_info` becomes the structure
`SoftwareInfo` with `Option` fields (a missing dictionary key is `none`);
values that may be either a string or a list in Python become the inductive
`StrOrList`.  File I/O is modelled at the call boundary: `parse_config_file`
receives the file's text as `Option String`, where `none` stands for a read
that raised (the `except` path of the source).
-/

/- ---------------------------------------------------------------------- -/
/- Python string primitives over `List Char`                              -/
/- ---------------------------------------------------------------------- -/

/-- Whitespace characters stripped by Python `str.strip()` (the ASCII ones,
which are the only whitespace this pipeline encounters). -/
def isPyWs (c : Char) : Bool :=
  c == ' ' || c == '\t' || c == '\n' || c == '\r' || c == '\x0b' || c == '\x0c'

/-- Python `str.strip()`: remove leading and trailing whitespace. -/
def stripList (l : List Char) : List Char :=
  ((l.dropWhile isPyWs).reverse.dropWhile isPyWs).reverse

/-- Python `str.strip()` on `String`. -/
def pyStrip (s : String) : String := ⟨stripList s.data⟩

/-- Cons a character onto the first piece of a split result. -/
def consHead (x : Char) : List (List Char) → List (List Char)
  | [] => [[x]]
  | h :: t => (x :: h) :: t

/-- Python `str.split(sep)` for a one-character separator `c`. -/
def splitCharList (c : Char) : List Char → List (List Char)
  | [] => [[]]
  | x :: rest =>
    if x == c then [] :: splitCharList c rest else consHead x (splitCharList c rest)

/-- Python `str.split(sep)` for a one-character separator, on `String`. -/
def pySplitChar (c : Char) (s : String) : List String :=
  (splitCharList c s.data).map (fun l => String.mk l)

/-- Python `str.split('||')`: split on the two-character separator, scanning
left to right, non-overlapping. -/
def splitDoublePipe : List Char → List (List Char)
  | [] => [[]]
  | [x] => [[x]]
  | x :: y :: rest =>
    if x == '|' && y == '|' then [] :: splitDoublePipe rest
    else consHead x (splitDoublePipe (y :: rest))

/-- Python `'||' in value`: is there a pair of adjacent pipe characters? -/
def contains2Pipes : List Char → Bool
  | [] => false
  | x :: rest => (x == '|' && rest.head? == some '|') || contains2Pipes rest

/-- Python `c in s` for a single character `c`. -/
def pyContainsChar (c : Char) (s : String) : Bool :=
  s.data.any (fun x => x == c)

/-- Python `str.split(sep, 1)`: the text before and after the first `c`
(when `c` is absent the whole string is the first component). -/
def splitFirstChar (c : Char) : List Char → List Char × List Char
  | [] => ([], [])
  | x :: rest =>
    if x == c then ([], rest)
    else
      let p := splitFirstChar c rest
      (x :: p.1, p.2)

/-- The part before the first `c`, as a `String`. -/
def pyBeforeChar (c : Char) (s : String) : String := ⟨(splitFirstChar c s.data).1⟩

/-- The part after the first `c`, as a `String`. -/
def pyAfterChar (c : Char) (s : String) : String := ⟨(splitFirstChar c s.data).2⟩

/-- Test whether `p` is a leading run of `l`. -/
def listStartsWith : List Char → List Char → Bool
  | [], _ => true
  | _ :: _, [] => false
  | a :: as, b :: bs => a == b && listStartsWith as bs

/-- Python `str.startswith(p)`. -/
def pyStartsWith (s p : String) : Bool := listStartsWith p.data s.data

/-- Python `str.endswith(p)`. -/
def pyEndsWith (s p : String) : Bool := listStartsWith p.data.reverse s.data.reverse

/-- Python `str.split()` (no argument): split on whitespace runs, with no
empty pieces. `acc` is the token currently being read. -/
def pySplitWsCore (acc : List Char) : List Char → List (List Char)
  | [] => if acc.isEmpty then [] else [acc]
  | c :: rest =>
    if isPyWs c then
      if acc.isEmpty then pySplitWsCore [] rest else acc :: pySplitWsCore [] rest
    else pySplitWsCore (acc ++ [c]) rest

/-- Python `str.split()` on `String`. -/
def pySplitWs (s : String) : List String :=
  (pySplitWsCore [] s.data).map (fun l => String.mk l)

/-- Python `str.replace(a, b)` for one-character arguments. -/
def pyReplaceChar (a b : Char) (s : String) : String :=
  ⟨s.data.map (fun c => if c == a then b else c)⟩

/-- Is `pat` a run of adjacent characters somewhere in `l` (Python
`pat in s` for a multi-character `pat`)? -/
def hasSubstr (pat : List Char) : List Char → Bool
  | [] => listStartsWith pat []
  | c :: rest => listStartsWith pat (c :: rest) || hasSubstr pat rest

/-- Substring test on `String`. -/
def containsSubstrB (pat s : String) : Bool := hasSubstr pat.data s.data

/- ---------------------------------------------------------------------- -/
/- Record model (the `software_info` dictionary)                          -/
/- ---------------------------------------------------------------------- -/

/-- A dictionary value that the source stores either as one string or as a
list of strings (the description, and the extra-notes accumulator). -/
inductive StrOrList where
  | str (s : String)
  | list (l : List String)
deriving DecidableEq, Repr

/-- A screenshot dictionary `{caption?, attribution?, url}` built by
`parse_config_file` (lines 216-239); a missing key is `none`. -/
structure ScreenshotDict where
  caption : Option String
  attribution : Option String
  url : String
deriving DecidableEq, Repr

/-- A screenshot entry as the renderer sees it: a dictionary or (for backward
compatibility, line 68-72) a bare URL string. -/
inductive ScreenshotItem where
  | dict (d : ScreenshotDict)
  | raw (s : String)
deriving DecidableEq, Repr

/-- A download-link dictionary `{url, code}` built by `parse_download_line`. -/
structure DownloadDict where
  url : String
  code : String
deriving DecidableEq, Repr

/-- A download entry as the renderer sees it: a dictionary or (backward
compatibility, line 86-89) a bare URL string. -/
inductive DownloadItem where
  | dict (d : DownloadDict)
  | raw (s : String)
deriving DecidableEq, Repr

/-- The `software_info` dictionary.  Field names translate the fixed
native-language keys of the source: `title` = 标题, `name` = 名称,
`version` = 版本, `description` = 描述, `features` = 功能,
`screenshots` = 截图, `downloadLinks` = 下载链接, `extraNotes` = 额外信息. -/
structure SoftwareInfo where
  title : Option String
  name : Option String
  version : Option String
  description : Option StrOrList
  features : Option (List String)
  screenshots : Option (List ScreenshotItem)
  downloadLinks : Option (List DownloadItem)
  extraNotes : Option StrOrList
deriving DecidableEq, Repr

/-- The empty dictionary. -/
def SoftwareInfo.empty : SoftwareInfo :=
  ⟨none, none, none, none, none, none, none, none⟩

/- ---------------------------------------------------------------------- -/
/- Renderer: `generate_wordpress_content` (page_template.py 12-121)       -/
/- ---------------------------------------------------------------------- -/

/-- Section 1 of `generate_wordpress_content` (lines 25-37): the
introduction heading, the description paragraphs when the description is
truthy, and the unconditional blank separator line. -/
def renderIntro (r : SoftwareInfo) : String :=
  "<h3>软件介绍</h3>\n" ++
  (match r.description.getD (.str "") with
   | .list l => String.join (l.map (fun para => "<p>" ++ para ++ "</p>\n"))
   | .str s => if s != "" then "<p>" ++ s ++ "</p>\n" else "") ++
  "\n"

/-- Section 2 (lines 39-47): the feature list, only when non-empty. -/
def renderFeatures (r : SoftwareInfo) : String :=
  let features := r.features.getD []
  if features.isEmpty then ""
  else
    "<h3>功能（使用）说明</h3>\n" ++ "<ol>\n" ++
    String.join (features.map (fun feature => " <li>" ++ feature ++ "</li>\n")) ++
    "</ol>\n" ++ "\n"

/-- One screenshot block (lines 54-72); `i` is the 0-based loop index. -/
def screenshotBlock (i : Nat) : ScreenshotItem → String
  | .dict d =>
    let caption := d.caption.getD ("软件截图 " ++ toString (i + 1))
    let attribution := d.attribution.getD ""
    (if attribution != "" then
       "[insertimg caption='" ++ caption ++ "' attribution='" ++ attribution ++ "']"
     else
       "[insertimg caption='" ++ caption ++ "']") ++
    "<img src=\"" ++ d.url ++ "\" />" ++ "[/insertimg]\n"
  | .raw s =>
    "[insertimg caption='软件截图 " ++ toString (i + 1) ++ "']" ++
    "<img src=\"" ++ s ++ "\" />" ++ "[/insertimg]\n"

/-- The `enumerate(screenshots)` loop of lines 54-72. -/
def screenshotsLoop : Nat → List ScreenshotItem → String
  | _, [] => ""
  | i, s :: rest => screenshotBlock i s ++ screenshotsLoop (i + 1) rest

/-- Section 3 (lines 49-74): the screenshots, only when non-empty. -/
def renderScreenshots (r : SoftwareInfo) : String :=
  let screenshots := r.screenshots.getD []
  if screenshots.isEmpty then ""
  else "<h3>软件截图</h3>\n" ++ screenshotsLoop 0 screenshots ++ "\n"

/-- The `url`/`code` pair the download loop extracts (lines 82-89). -/
def downloadUrlCode : DownloadItem → String × String
  | .dict d => (d.url, d.code)
  | .raw s => (s, "")

/-- One link short-code (lines 91-94). -/
def linkPart (it : DownloadItem) : String :=
  let uc := downloadUrlCode it
  if uc.2 != "" && pyStrip uc.2 != "" then
    " [link url=\"" ++ uc.1 ++ "\" code=\"" ++ uc.2 ++ "\"][/link]"
  else
    " [link url=\"" ++ uc.1 ++ "\"][/link]"

/-- The strings the download loop appends to `html_parts` (lines 82-98):
each link's short-code, and a line break after every 4th link. -/
def downloadParts : Nat → List DownloadItem → List String
  | _, [] => []
  | i, it :: rest =>
    (linkPart it :: if (i + 1) % 4 == 0 then ["\n"] else []) ++ downloadParts (i + 1) rest

/-- Section 4 (lines 76-104): the downloads block, only when non-empty,
with a trailing line break when the count is not a multiple of 4. -/
def renderDownloads (r : SoftwareInfo) : String :=
  let links := r.downloadLinks.getD []
  if links.isEmpty then ""
  else
    "<h3>软件下载</h3>\n" ++ "[downloads]\n" ++
    String.join (downloadParts 0 links) ++
    (if links.length % 4 != 0 then "\n" else "") ++
    "[/downloads]\n"

/-- Section 5 (lines 106-119): the extra-info block.  A truthy string that
is non-blank after stripping renders as a single paragraph; a truthy list
renders a heading plus one paragraph per entry that is truthy and non-blank
after stripping (blank entries are skipped, but the heading is emitted for
any non-empty list). -/
def renderExtra (r : SoftwareInfo) : String :=
  match r.extraNotes.getD (.str "") with
  | .str s =>
    if s != "" && pyStrip s != "" then
      "\n" ++ "<h3>其他信息</h3>\n" ++ "<p>" ++ s ++ "</p>\n"
    else ""
  | .list l =>
    if l.isEmpty then ""
    else
      "\n" ++ "<h3>其他信息</h3>\n" ++
      String.join (l.filterMap (fun para =>
        if para != "" && pyStrip para != "" then some ("<p>" ++ para ++ "</p>\n")
        else none))

/-- The renderer `generate_wordpress_content` (lines 12-121): the five sections, joined
in order exactly as the `html_parts` list is joined. -/
def generate_wordpress_content (r : SoftwareInfo) : String :=
  renderIntro r ++ renderFeatures r ++ renderScreenshots r ++
  renderDownloads r ++ renderExtra r

/- ---------------------------------------------------------------------- -/
/- Parser: `parse_config_file` (page_template.py 153-292)                 -/
/- ---------------------------------------------------------------------- -/

/-- The helper `parse_download_line` (lines 124-150): whitespace-split a stripped
line into a url and an optional extraction code; an empty line yields the
empty dictionary (`none` here), which the caller discards. -/
def parse_download_line (line : String) : Option DownloadDict :=
  let l := pyStrip line
  if l == "" then none
  else
    match pySplitWs l with
    | [u] => some ⟨pyStrip u, ""⟩
    | u :: c :: _ => some ⟨pyStrip u, pyStrip c⟩
    | [] => none

/-- The handling of a `描述` (description) value (lines 200-205): a value
containing `||` splits into the list of stripped pieces, otherwise it is
kept as a single string. -/
def parseDescriptionValue (value : String) : StrOrList :=
  if contains2Pipes value.data then
    .list ((splitDoublePipe value.data).map (fun p => pyStrip ⟨p⟩))
  else .str value

/-- The handling of a `软件截图` (Screenshot-List) value (lines 222-238):
split on `|`; 3 or more pieces give caption+attribution+url, exactly 2 give
caption+url, otherwise the whole value is the url. -/
def parseScreenshotValue (value : String) : ScreenshotDict :=
  if pyContainsChar '|' value then
    match pySplitChar '|' value with
    | p0 :: p1 :: p2 :: _ => ⟨some (pyStrip p0), some (pyStrip p1), pyStrip p2⟩
    | [p0, p1] => ⟨some (pyStrip p0), none, pyStrip p1⟩
    | _ => ⟨none, none, value⟩
  else ⟨none, none, value⟩

/-- The mutable state of the line scan (lines 163-173): the scalar entries
of `software_info`, the accumulating `额外信息` entry, `current_section`,
and the three temporary lists. -/
structure ScanState where
  title : Option String
  name : Option String
  version : Option String
  description : Option StrOrList
  extraNotes : Option (List String)
  cur : Option String
  tempDownloads : List DownloadItem
  tempFeatures : List String
  tempScreenshots : List ScreenshotItem
deriving DecidableEq, Repr

/-- The scan state before the first line. -/
def initState : ScanState := ⟨none, none, none, none, none, none, [], [], []⟩

/-- The `[软件信息]` (Software-Info) section body (lines 188-205): a
`key = value` line assigns one of the four fixed fields; other lines and
unrecognized keys do nothing. -/
def handleInfo (st : ScanState) (line : String) : ScanState :=
  if pyContainsChar '=' line then
    let key := pyStrip (pyBeforeChar '=' line)
    let value := pyStrip (pyAfterChar '=' line)
    if key == "标题" then { st with title := some value }
    else if key == "名称" then { st with name := some value }
    else if key == "版本" then { st with version := some value }
    else if key == "描述" then { st with description := some (parseDescriptionValue value) }
    else st
  else st

/-- The `[功能介绍]` (Feature-List) section body (lines 207-214): the text
after the first `=` when one is present, the whole line otherwise. -/
def handleFeature (st : ScanState) (line : String) : ScanState :=
  if pyContainsChar '=' line then
    { st with tempFeatures := st.tempFeatures ++ [pyStrip (pyAfterChar '=' line)] }
  else
    { st with tempFeatures := st.tempFeatures ++ [pyStrip line] }

/-- The `[软件截图]` (Screenshot-List) section body (lines 216-239): only
`key = value` lines contribute; a line without `=` is dropped. -/
def handleScreenshot (st : ScanState) (line : String) : ScanState :=
  if pyContainsChar '=' line then
    let value := pyStrip (pyAfterChar '=' line)
    { st with tempScreenshots := st.tempScreenshots ++ [.dict (parseScreenshotValue value)] }
  else st

/-- The `[下载链接]` (Download-Links) section body (lines 241-246). -/
def handleDownload (st : ScanState) (line : String) : ScanState :=
  if line != "" && !(pyStartsWith line "#") then
    match parse_download_line line with
    | some d => { st with tempDownloads := st.tempDownloads ++ [.dict d] }
    | none => st
  else st

/-- One iteration of the scan loop (lines 175-251): strip the line, skip
blanks and comments, switch section on `[...]` lines, and otherwise
dispatch on the current section. -/
def scanLine (st : ScanState) (raw : String) : ScanState :=
  let line := pyStrip raw
  if line == "" || pyStartsWith line "#" then st
  else if pyStartsWith line "[" && pyEndsWith line "]" then
    { st with cur := some (pyStrip ⟨(line.data.drop 1).dropLast⟩) }
  else if st.cur == some "软件信息" then handleInfo st line
  else if st.cur == some "功能介绍" then handleFeature st line
  else if st.cur == some "软件截图" then handleScreenshot st line
  else if st.cur == some "下载链接" then handleDownload st line
  else if st.cur == some "额外信息" then
    { st with extraNotes := some (st.extraNotes.getD [] ++ [line]) }
  else st

/-- The minimal fallback dictionary returned when parsing raises
(lines 282-290); `stem` is `config_path.stem`. -/
def fallbackInfo (stem : String) : SoftwareInfo :=
  { title := some stem
    name := some "未知软件"
    version := some "1.0.0"
    description := some (.str "解析配置文件出错")
    features := none
    screenshots := none
    downloadLinks := none
    extraNotes := none }

/-- The parser `parse_config_file` (lines 153-292).  `stem` is the config file's
filename stem; `content?` is the file's text, `none` when the read raised
(the `except Exception` path).  After the scan, the temporary lists are
attached only when non-empty (lines 253-261) and the post-scan defaults of
lines 263-280 are applied. -/
def parse_config_file (stem : String) (content? : Option String) : SoftwareInfo :=
  match content? with
  | none => fallbackInfo stem
  | some content =>
    let st := (pySplitChar '\n' content).foldl scanLine initState
    let title0 : Option String :=
      match st.title with
      | some t => some t
      | none => match st.name with
                | some n => some n
                | none => some stem
    let name0 : Option String :=
      match st.name with
      | some n => some n
      | none => some (title0.getD "未命名软件")
    { title := title0
      name := name0
      version := match st.version with | some v => some v | none => some "1.0.0"
      description := match st.description with | some d => some d | none => some (.str "")
      features := if st.tempFeatures.isEmpty then none else some st.tempFeatures
      screenshots := if st.tempScreenshots.isEmpty then none else some st.tempScreenshots
      downloadLinks := if st.tempDownloads.isEmpty then none else some st.tempDownloads
      extraNotes := st.extraNotes.map .list }

/-- The characters the filename regex class removes: `\ / * ? : " < > |`
(page_template.py lines 313/322, build.py line 41). -/
def isBadFileChar (c : Char) : Bool :=
  c == '\\' || c == '/' || c == '*' || c == '?' || c == ':' ||
  c == '"' || c == '<' || c == '>' || c == '|'

/-- Model of `re.sub` with the class above: drop the Windows-forbidden filename
characters. -/
def reSubBad (s : String) : String :=
  ⟨s.data.filter (fun c => !(isBadFileChar c))⟩

/-- The function `get_software_title` (page_template.py 295-330): the
filesystem token derived from the title (or name, or filename stem, or
`"software"`); it strips the forbidden characters and replaces spaces but,
unlike `sanitize_filename`, does not truncate. -/
def get_software_title (r : SoftwareInfo) (configStem : Option String) : String :=
  let title := r.title.getD ""
  if title != "" then pyReplaceChar ' ' '_' (reSubBad title)
  else
    match r.name with
    | some name => pyReplaceChar ' ' '_' (reSubBad name)
    | none => match configStem with
              | some s => s
              | none => "software"

/-- The generated-filename text interpolated into the file-info block of
the preview document (`generate_html_embed`, page_template.py line 420):
`{software_info.get('标题', 'software').replace(' ', '_')}.html`. -/
def previewGeneratedFilename (r : SoftwareInfo) : String :=
  pyReplaceChar ' ' '_' (r.title.getD "software") ++ ".html"

/- ---------------------------------------------------------------------- -/
/- build.py: `sanitize_filename` and `generate_pure_content`              -/
/- ---------------------------------------------------------------------- -/

/-- The utility `sanitize_filename` (build.py 30-47): drop the forbidden characters,
replace spaces with underscores, truncate to 100 characters. -/
def sanitize_filename (s : String) : String :=
  let s1 := pyReplaceChar ' ' '_' (reSubBad s)
  if s1.length > 100 then ⟨s1.data.take 100⟩ else s1

/-- Drop one leading newline if present (the `\n?` tail of the two
post-processing regexes, which matches greedily). -/
def dropNl : List Char → List Char
  | '\n' :: r => r
  | r => r

/-- First post-processing regex, `\n\n<p></p>\n?` (build.py line 69): scan left to
right; at a match, drop the matched text and continue after it. -/
def reSub1 : List Char → List Char
  | [] => []
  | '\n' :: '\n' :: '<' :: 'p' :: '>' :: '<' :: '/' :: 'p' :: '>' :: '\n' :: rest => reSub1 rest
  | '\n' :: '\n' :: '<' :: 'p' :: '>' :: '<' :: '/' :: 'p' :: '>' :: rest => reSub1 rest
  | c :: rest => c :: reSub1 rest

/-- One step of the second regex at a candidate position: after `\n\n<p>`,
greedily take the whitespace run, then require `</p>` (the pattern's
`\s*</p>`), returning the rest after the optional trailing newline. -/
def matchWsClose (rest : List Char) : Option (List Char) :=
  let r2 := rest.dropWhile isPyWs
  if listStartsWith ['<', '/', 'p', '>'] r2 then some (dropNl (r2.drop 4)) else none

/-- Second post-processing regex, `\n\n<p>\s*</p>\n?` (build.py line 70), with explicit
fuel (one unit per character consumed) to make the scan structural. -/
def reSub2Fuel : Nat → List Char → List Char
  | 0, l => l
  | _ + 1, [] => []
  | n + 1, '\n' :: '\n' :: '<' :: 'p' :: '>' :: rest =>
    (match matchWsClose rest with
     | some rem => reSub2Fuel n rem
     | none => '\n' :: reSub2Fuel n ('\n' :: '<' :: 'p' :: '>' :: rest))
  | n + 1, c :: rest => c :: reSub2Fuel n rest

/-- The second post-processing regex on a whole string. -/
def reSub2 (l : List Char) : List Char := reSub2Fuel l.length l

/-- The condition of build.py lines 64-65:
`not extra_info or (isinstance(extra_info, str) and not extra_info.strip())`,
where `extra_info = software_info.get('额外信息', '')`. -/
def postProcessCond : StrOrList → Bool
  | .str s => (s == "") || (pyStrip s == "")
  | .list l => l.isEmpty

/-- The function `generate_pure_content` (build.py 50-72): the WordPress content, with
the two empty-paragraph regexes applied when the extra info is absent, an
empty value, or a blank string. -/
def generate_pure_content (r : SoftwareInfo) : String :=
  let wp := generate_wordpress_content r
  if postProcessCond (r.extraNotes.getD (.str "")) then
    ⟨reSub2 (reSub1 wp.data)⟩
  else wp

/- ---------------------------------------------------------------------- -/
/- Derived definitions used by the theorems                               -/
/- ---------------------------------------------------------------------- -/

/-- The section that a config line declares, if any: the bracketed name of
a stripped, non-blank, non-comment line of the shape `[...]`, computed
exactly as lines 183-185 of the scan do. -/
def lineSection (raw : String) : Option String :=
  let line := pyStrip raw
  if line == "" || pyStartsWith line "#" then none
  else if pyStartsWith line "[" && pyEndsWith line "]" then
    some (pyStrip ⟨(line.data.drop 1).dropLast⟩)
  else none

/-- The invariant for C2: no scalar field assigned yet, and the current
section is not 软件信息 (Software-Info). -/
def NoInfoInv (st : ScanState) : Prop :=
  st.title = none ∧ st.name = none ∧ st.version = none ∧ st.cur ≠ some "软件信息"

/-- The invariant for C10: every accumulated 额外信息 (Extra-Info) entry is
non-empty after stripping. -/
def NotesInv (st : ScanState) : Prop :=
    ((st.extraNotes.getD []).all fun e => pyStrip e != "") = true

/-- The `extraNotes` entries of a Record, when the field holds a list. -/
def extraEntries (r : SoftwareInfo) : List String :=
  match r.extraNotes with
  | some (.list l) => l
  | _ => []

/-- A Record whose `extraNotes` is present and whose single entry `" "` is
blank after trimming. -/
def blankNotesRecord : SoftwareInfo :=
  { SoftwareInfo.empty with extraNotes := some (.list [" "]) }

/-- A 101-character title, exceeding the 100-character truncation bound. -/
def longTitle : String := ⟨List.replicate 101 'a'⟩

/- ---------------------------------------------------------------------- -/
/- Helper lemmas on the string primitives                                 -/
/- ---------------------------------------------------------------------- -/

/-- A non-empty `dropWhile` result starts with an element refuting `p`. -/
theorem dropWhile_head_false (p : Char → Bool) :
    ∀ l : List Char, l.dropWhile p ≠ [] →
      ∃ a t, l.dropWhile p = a :: t ∧ p a = false := by
  intro l
  induction l with
  | nil => intro h; simp [List.dropWhile] at h
  | cons a t ih =>
    intro h
    by_cases ha : p a
    · rw [List.dropWhile_cons_of_pos ha] at h ⊢
      exact ih h
    · rw [List.dropWhile_cons_of_neg ha]
      exact ⟨a, t, rfl, by simpa using ha⟩

/-- A non-empty `dropWhile` result keeps the last element of the list. -/
theorem dropWhile_getLast? (p : Char → Bool) :
    ∀ l : List Char, l.dropWhile p ≠ [] →
      (l.dropWhile p).getLast? = l.getLast? := by
  intro l
  induction l with
  | nil => intro h; simp [List.dropWhile] at h
  | cons a t ih =>
    intro h
    by_cases ha : p a
    · rw [List.dropWhile_cons_of_pos ha] at h ⊢
      have ht : t ≠ [] := by
        intro he; rw [he] at h; simp [List.dropWhile] at h
      rw [ih h]
      cases t with
      | nil => exact absurd rfl ht
      | cons b u => rw [List.getLast?_cons_cons]
    · rw [List.dropWhile_cons_of_neg ha]

/-- A `dropWhile` is the identity on a list whose head refutes `p`. -/
theorem dropWhile_eq_self_of_head (p : Char → Bool) (l : List Char)
    (h : ∀ a, l.head? = some a → p a = false) : l.dropWhile p = l := by
  cases l with
  | nil => rfl
  | cons a t =>
    have := h a rfl
    simp [List.dropWhile, this]

/-- A non-empty stripped list starts with a non-whitespace character. -/
theorem stripList_head (l : List Char) (h : stripList l ≠ []) :
    ∃ a, (stripList l).head? = some a ∧ isPyWs a = false := by
  have hx : (l.dropWhile isPyWs).reverse.dropWhile isPyWs ≠ [] := by
    intro he; apply h; unfold stripList; rw [he]; rfl
  have hu : l.dropWhile isPyWs ≠ [] := by
    intro he; apply hx; rw [he]; rfl
  obtain ⟨a, t, hat, hpa⟩ := dropWhile_head_false isPyWs l hu
  refine ⟨a, ?_, hpa⟩
  unfold stripList
  rw [List.head?_reverse, dropWhile_getLast? isPyWs _ hx, List.getLast?_reverse, hat]
  rfl

/-- A non-empty stripped list ends with a non-whitespace character. -/
theorem stripList_getLast (l : List Char) (h : stripList l ≠ []) :
    ∃ a, (stripList l).getLast? = some a ∧ isPyWs a = false := by
  have hx : (l.dropWhile isPyWs).reverse.dropWhile isPyWs ≠ [] := by
    intro he; apply h; unfold stripList; rw [he]; rfl
  obtain ⟨a, t, hat, hpa⟩ := dropWhile_head_false isPyWs (l.dropWhile isPyWs).reverse hx
  refine ⟨a, ?_, hpa⟩
  unfold stripList
  rw [List.getLast?_reverse, hat]
  rfl

/-- Stripping is idempotent. -/
theorem stripList_idem (l : List Char) : stripList (stripList l) = stripList l := by
  by_cases h : stripList l = []
  · rw [h]; rfl
  · obtain ⟨a, hh, hpa⟩ := stripList_head l h
    obtain ⟨b, hlast, hpb⟩ := stripList_getLast l h
    show (((stripList l).dropWhile isPyWs).reverse.dropWhile isPyWs).reverse = stripList l
    rw [dropWhile_eq_self_of_head isPyWs (stripList l)
        (by intro c hc; rw [hh] at hc; cases hc; exact hpa)]
    rw [dropWhile_eq_self_of_head isPyWs (stripList l).reverse
        (by intro c hc; rw [List.head?_reverse, hlast] at hc; cases hc; exact hpb)]
    exact List.reverse_reverse _

/-- Python `str.strip()` is idempotent. -/
theorem pyStrip_idem (s : String) : pyStrip (pyStrip s) = pyStrip s := by
  unfold pyStrip
  exact String.ext (stripList_idem s.data)

/-- Splitting on `c` at the first separator: the piece before it comes off
whole when it contains no separator. -/
theorem splitCharList_append (c : Char) :
    ∀ a r : List Char, c ∉ a →
      splitCharList c (a ++ c :: r) = a :: splitCharList c r := by
  intro a
  induction a with
  | nil =>
    intro r _
    simp [splitCharList]
  | cons x xs ih =>
    intro r h
    have hx : x ≠ c := fun he => h (he ▸ List.mem_cons_self x xs)
    have hxs : c ∉ xs := fun hm => h (List.mem_cons_of_mem x hm)
    show splitCharList c (x :: (xs ++ c :: r)) = (x :: xs) :: splitCharList c r
    rw [splitCharList]
    simp only [beq_iff_eq, hx, if_false]
    rw [ih r hxs]
    rfl

/-- A list without the separator splits into itself alone. -/
theorem splitCharList_no_sep (c : Char) :
    ∀ a : List Char, c ∉ a → splitCharList c a = [a] := by
  intro a
  induction a with
  | nil => intro _; rfl
  | cons x xs ih =>
    intro h
    have hx : x ≠ c := fun he => h (he ▸ List.mem_cons_self x xs)
    have hxs : c ∉ xs := fun hm => h (List.mem_cons_of_mem x hm)
    rw [splitCharList]
    simp only [beq_iff_eq, hx, if_false]
    rw [ih hxs]
    rfl

/-- Unfolding `split('||')` one character when that character is not a pipe. -/
theorem splitDoublePipe_cons_ne (x y : Char) (ys : List Char) (hx : x ≠ '|') :
    splitDoublePipe (x :: y :: ys) = consHead x (splitDoublePipe (y :: ys)) := by
  have hxb : (x == '|') = false := beq_eq_false_iff_ne.mpr hx
  simp [splitDoublePipe, hxb]

/-- Splitting on `||` takes off a `||`-free piece at the first separator. -/
theorem splitDoublePipe_append :
    ∀ a r : List Char, '|' ∉ a →
      splitDoublePipe (a ++ '|' :: '|' :: r) = a :: splitDoublePipe r := by
  intro a
  induction a with
  | nil =>
    intro r _
    show splitDoublePipe ('|' :: '|' :: r) = [] :: splitDoublePipe r
    simp only [splitDoublePipe]
    simp
  | cons x xs ih =>
    intro r h
    have hx : x ≠ '|' := fun he => h (he ▸ List.mem_cons_self x xs)
    have hxs : '|' ∉ xs := fun hm => h (List.mem_cons_of_mem x hm)
    show splitDoublePipe (x :: (xs ++ '|' :: '|' :: r)) = (x :: xs) :: splitDoublePipe r
    cases he : xs ++ '|' :: '|' :: r with
    | nil => simp at he
    | cons y ys =>
      rw [splitDoublePipe_cons_ne x y ys hx, ← he, ih r hxs]
      rfl

/-- A list without pipes survives `split('||')` whole. -/
theorem splitDoublePipe_no_pipe :
    ∀ a : List Char, '|' ∉ a → splitDoublePipe a = [a] := by
  intro a
  induction a with
  | nil => intro _; rfl
  | cons x xs ih =>
    intro h
    have hx : x ≠ '|' := fun he => h (he ▸ List.mem_cons_self x xs)
    have hxs : '|' ∉ xs := fun hm => h (List.mem_cons_of_mem x hm)
    cases xs with
    | nil => rfl
    | cons y ys =>
      rw [splitDoublePipe_cons_ne x y ys hx, ih hxs]
      rfl

/-- A text with an explicit `||` inside passes the `'||' in value` test. -/
theorem contains2Pipes_append :
    ∀ a r : List Char, contains2Pipes (a ++ '|' :: '|' :: r) = true := by
  intro a
  induction a with
  | nil =>
    intro r
    simp only [contains2Pipes]
    simp
  | cons x xs ih =>
    intro r
    show contains2Pipes (x :: (xs ++ '|' :: '|' :: r)) = true
    simp only [contains2Pipes, ih r]
    simp

/- ---------------------------------------------------------------------- -/
/- Claim theorems                                                         -/
/- ---------------------------------------------------------------------- -/

/-- C4: `parse_config_file` never fails fatally: on any input whose read or
scan raises (modelled by `content? = none`, the `except Exception` path of
lines 282-290), it returns exactly the minimal fallback Record
`{ title: filename stem, name: "未知软件" (unknown software),
version: "1.0.0", description: "解析配置文件出错" (error marker) }`, a
well-formed `SoftwareInfo` that rendering accepts. -/
theorem c4_parse_fallback (stem : String) :
    parse_config_file stem none =
      { title := some stem
        name := some "未知软件"
        version := some "1.0.0"
        description := some (.str "解析配置文件出错")
        features := none
        screenshots := none
        downloadLinks := none
        extraNotes := none } := rfl

/-- C8: `sanitize_filename` never outputs one of the stripped characters
`\ / : * ? " < > |` nor a space, its output never exceeds 100 characters,
and `sanitize_filename "My:App?Name 2024" = "MyAppName_2024"`. -/
theorem c8_sanitize_filename :
    (∀ s : String,
        (sanitize_filename s).length ≤ 100 ∧
        ((sanitize_filename s).data.all fun c => !(isBadFileChar c) && !(c == ' ')) = true) ∧
    sanitize_filename "My:App?Name 2024" = "MyAppName_2024" := by
  constructor
  · intro s
    have hall : ∀ c ∈ (pyReplaceChar ' ' '_' (reSubBad s)).data,
        (!(isBadFileChar c) && !(c == ' ')) = true := by
      intro c hc
      simp only [pyReplaceChar, reSubBad, List.mem_map, List.mem_filter] at hc
      obtain ⟨x, ⟨_, hxgood⟩, hcx⟩ := hc
      by_cases hsp : x = ' '
      · subst hsp
        simp at hcx
        subst hcx
        decide
      · have : c = x := by
          rw [← hcx]
          simp [hsp]
        subst this
        simp [hxgood, hsp]
    have hdef : sanitize_filename s =
        if (pyReplaceChar ' ' '_' (reSubBad s)).length > 100 then
          ⟨(pyReplaceChar ' ' '_' (reSubBad s)).data.take 100⟩
        else pyReplaceChar ' ' '_' (reSubBad s) := rfl
    by_cases h : (pyReplaceChar ' ' '_' (reSubBad s)).length > 100
    · rw [hdef, if_pos h]
      constructor
      · show (List.take 100 (pyReplaceChar ' ' '_' (reSubBad s)).data).length ≤ 100
        exact List.length_take_le 100 _
      · rw [List.all_eq_true]
        intro c hc
        exact hall c ((List.take_sublist _ _).subset hc)
    · rw [hdef, if_neg h]
      constructor
      · omega
      · rw [List.all_eq_true]
        exact hall
  · rfl

/-- C1 counterexample: the claim fails on a Record whose `extraNotes` is
present as a non-empty list all of whose entries are blank after trimming:
the renderer emits the 其他信息 (Other info) heading (with no paragraphs),
and the post-processing pass of `generate_pure_content` does not run for a
list value (its guard only treats a falsy value or a blank *string* as
empty), so the heading survives in the output. -/
theorem c1_counterexample :
    pyStrip " " = "" ∧
    containsSubstrB "<h3>其他信息</h3>" (generate_pure_content blankNotesRecord) = true := by
  constructor
  · rfl
  · rfl

/-- C1 as amended: if `extraNotes` is absent, a blank string, or an empty
list (exactly the values for which build.py lines 64-65 apply the
post-processing), the extra-info section contributes nothing, so the output
is the post-processed rendering of the first four sections; in particular
it contains no 其他信息 (Other info) heading unless that text already
occurs in the post-processed first four sections.  (A non-empty list all
of whose entries are blank is excluded: there the heading is emitted and
survives, see the counterexample.) -/
theorem c1_amended (r : SoftwareInfo)
    (h1 : postProcessCond (r.extraNotes.getD (.str "")) = true)
    (h2 : containsSubstrB "<h3>其他信息</h3>"
        ⟨reSub2 (reSub1 (renderIntro r ++ renderFeatures r ++ renderScreenshots r ++
            renderDownloads r).data)⟩ = false) :
    containsSubstrB "<h3>其他信息</h3>" (generate_pure_content r) = false := by
  have hextra : renderExtra r = "" := by
    cases hval : r.extraNotes.getD (.str "") with
    | str s =>
      rw [hval] at h1
      simp only [postProcessCond] at h1
      unfold renderExtra
      rw [hval]
      dsimp only
      rcases Bool.or_eq_true_iff.mp h1 with hs | hs
      · have hse : s = "" := beq_iff_eq.mp hs
        subst hse
        rfl
      · have hps : pyStrip s = "" := beq_iff_eq.mp hs
        rw [hps]
        simp
    | list l =>
      rw [hval] at h1
      simp only [postProcessCond] at h1
      unfold renderExtra
      rw [hval]
      dsimp only
      rw [if_pos h1]
  unfold generate_pure_content generate_wordpress_content
  rw [if_pos h1, hextra, String.append_empty]
  exact h2

/-- C1 amended, witnessed at the empty Record (no `extraNotes` at all):
the output contains no 其他信息 heading. -/
theorem c1_amended_witness :
    containsSubstrB "<h3>其他信息</h3>" (generate_pure_content SoftwareInfo.empty) = false :=
  c1_amended SoftwareInfo.empty rfl rfl

/- ---------------------------------------------------------------------- -/
/- Scan-loop invariants                                                   -/
/- ---------------------------------------------------------------------- -/

theorem handleInfo_extraNotes (st : ScanState) (l : String) :
    (handleInfo st l).extraNotes = st.extraNotes := by
  unfold handleInfo
  split
  · dsimp only
    repeat' split
    all_goals rfl
  · rfl

theorem handleFeature_extraNotes (st : ScanState) (l : String) :
    (handleFeature st l).extraNotes = st.extraNotes := by
  unfold handleFeature
  split <;> rfl

theorem handleScreenshot_extraNotes (st : ScanState) (l : String) :
    (handleScreenshot st l).extraNotes = st.extraNotes := by
  unfold handleScreenshot
  split <;> rfl

theorem handleDownload_extraNotes (st : ScanState) (l : String) :
    (handleDownload st l).extraNotes = st.extraNotes := by
  unfold handleDownload
  repeat' split
  all_goals rfl

theorem handleFeature_scalars (st : ScanState) (l : String) :
    (handleFeature st l).title = st.title ∧ (handleFeature st l).name = st.name ∧
    (handleFeature st l).version = st.version ∧ (handleFeature st l).cur = st.cur := by
  unfold handleFeature
  split <;> exact ⟨rfl, rfl, rfl, rfl⟩

theorem handleScreenshot_scalars (st : ScanState) (l : String) :
    (handleScreenshot st l).title = st.title ∧ (handleScreenshot st l).name = st.name ∧
    (handleScreenshot st l).version = st.version ∧ (handleScreenshot st l).cur = st.cur := by
  unfold handleScreenshot
  split <;> exact ⟨rfl, rfl, rfl, rfl⟩

theorem handleDownload_scalars (st : ScanState) (l : String) :
    (handleDownload st l).title = st.title ∧ (handleDownload st l).name = st.name ∧
    (handleDownload st l).version = st.version ∧ (handleDownload st l).cur = st.cur := by
  unfold handleDownload
  repeat' split
  all_goals exact ⟨rfl, rfl, rfl, rfl⟩

/-- A line that does not declare the 软件信息 section preserves `NoInfoInv`. -/
theorem scanLine_noInfo (st : ScanState) (raw : String)
    (hline : lineSection raw ≠ some "软件信息") (hst : NoInfoInv st) :
    NoInfoInv (scanLine st raw) := by
  obtain ⟨h1, h2, h3, h4⟩ := hst
  unfold scanLine
  by_cases hb : (pyStrip raw == "" || pyStartsWith (pyStrip raw) "#") = true
  · rw [if_pos hb]
    exact ⟨h1, h2, h3, h4⟩
  · rw [if_neg hb]
    by_cases hs : (pyStartsWith (pyStrip raw) "[" && pyEndsWith (pyStrip raw) "]") = true
    · rw [if_pos hs]
      refine ⟨h1, h2, h3, ?_⟩
      intro hcontra
      apply hline
      unfold lineSection
      rw [if_neg hb, if_pos hs]
      simpa using hcontra
    · rw [if_neg hs]
      have hinfo : (st.cur == some "软件信息") = false := by
        simpa using h4
      rw [if_neg (by simp [hinfo])]
      by_cases hf : (st.cur == some "功能介绍") = true
      · rw [if_pos hf]
        obtain ⟨e1, e2, e3, e4⟩ := handleFeature_scalars st (pyStrip raw)
        exact ⟨e1.trans h1, e2.trans h2, e3.trans h3, by rw [e4]; exact h4⟩
      · rw [if_neg hf]
        by_cases hsc : (st.cur == some "软件截图") = true
        · rw [if_pos hsc]
          obtain ⟨e1, e2, e3, e4⟩ := handleScreenshot_scalars st (pyStrip raw)
          exact ⟨e1.trans h1, e2.trans h2, e3.trans h3, by rw [e4]; exact h4⟩
        · rw [if_neg hsc]
          by_cases hd : (st.cur == some "下载链接") = true
          · rw [if_pos hd]
            obtain ⟨e1, e2, e3, e4⟩ := handleDownload_scalars st (pyStrip raw)
            exact ⟨e1.trans h1, e2.trans h2, e3.trans h3, by rw [e4]; exact h4⟩
          · rw [if_neg hd]
            by_cases he : (st.cur == some "额外信息") = true
            · rw [if_pos he]
              exact ⟨h1, h2, h3, h4⟩
            · rw [if_neg he]
              exact ⟨h1, h2, h3, h4⟩

/-- The invariant `NoInfoInv` is preserved by scanning any list of lines none of which
declares the 软件信息 section. -/
theorem foldl_noInfo :
    ∀ (lines : List String) (st : ScanState),
      (∀ raw ∈ lines, lineSection raw ≠ some "软件信息") → NoInfoInv st →
      NoInfoInv (lines.foldl scanLine st) := by
  intro lines
  induction lines with
  | nil => intro st _ hst; exact hst
  | cons raw rest ih =>
    intro st h hst
    rw [List.foldl_cons]
    exact ih (scanLine st raw)
      (fun l hl => h l (List.mem_cons_of_mem raw hl))
      (scanLine_noInfo st raw (h raw (List.mem_cons_self raw rest)) hst)

/-- C2 counterexample: for a config source with no 软件信息 (Software-Info)
section — here the empty source, with filename stem `"myapp"` — the parser
does give `title = stem` and `version = "1.0.0"`, but `name` is the stem as
well (it falls back to the already-defaulted title, lines 271-272), not the
"unknown" marker: neither `未知软件` (the error-fallback name) nor
`未命名软件` (the dead default of line 272) is produced. -/
theorem c2_counterexample :
    (parse_config_file "myapp" (some "")).name = some "myapp" ∧
    (parse_config_file "myapp" (some "")).name ≠ some "未知软件" ∧
    (parse_config_file "myapp" (some "")).name ≠ some "未命名软件" ∧
    (parse_config_file "myapp" (some "")).title = some "myapp" ∧
    (parse_config_file "myapp" (some "")).version = some "1.0.0" := by
  refine ⟨rfl, ?_, ?_, rfl, rfl⟩ <;> decide

/-- C2 as amended: for every config source none of whose lines declares the
软件信息 (Software-Info) section, the parsed Record has
`title = stem`, `name = stem` (name falls back to the title, which is the
filename stem — not to an "unknown" marker), and `version = "1.0.0"`. -/
theorem c2_amended (stem content : String)
    (h : ∀ raw ∈ pySplitChar '\n' content, lineSection raw ≠ some "软件信息") :
    (parse_config_file stem (some content)).title = some stem ∧
    (parse_config_file stem (some content)).name = some stem ∧
    (parse_config_file stem (some content)).version = some "1.0.0" := by
  have hinv := foldl_noInfo (pySplitChar '\n' content) initState h
    ⟨rfl, rfl, rfl, by simp [initState]⟩
  obtain ⟨h1, h2, h3, _⟩ := hinv
  refine ⟨?_, ?_, ?_⟩ <;> simp [parse_config_file, h1, h2, h3]

/-- C2 amended, witnessed on the one-line source `"hello"` (which has no
section lines at all) with stem `"myapp"`. -/
theorem c2_amended_witness :
    (parse_config_file "myapp" (some "hello")).title = some "myapp" ∧
    (parse_config_file "myapp" (some "hello")).name = some "myapp" ∧
    (parse_config_file "myapp" (some "hello")).version = some "1.0.0" :=
  c2_amended "myapp" "hello" (by decide)

/-- One scanned line preserves `NotesInv`: the only branch that touches the
accumulator appends the stripped line, which the blank-line guard has
already shown to be non-blank. -/
theorem scanLine_notes (st : ScanState) (raw : String) (hst : NotesInv st) :
    NotesInv (scanLine st raw) := by
  unfold scanLine
  by_cases hb : (pyStrip raw == "" || pyStartsWith (pyStrip raw) "#") = true
  · rw [if_pos hb]
    exact hst
  · rw [if_neg hb]
    have hne : pyStrip raw ≠ "" := by
      intro he
      apply hb
      simp [he]
    by_cases hs : (pyStartsWith (pyStrip raw) "[" && pyEndsWith (pyStrip raw) "]") = true
    · rw [if_pos hs]
      exact hst
    · rw [if_neg hs]
      by_cases hi : (st.cur == some "软件信息") = true
      · rw [if_pos hi]
        unfold NotesInv
        rw [handleInfo_extraNotes]
        exact hst
      · rw [if_neg hi]
        by_cases hf : (st.cur == some "功能介绍") = true
        · rw [if_pos hf]
          unfold NotesInv
          rw [handleFeature_extraNotes]
          exact hst
        · rw [if_neg hf]
          by_cases hsc : (st.cur == some "软件截图") = true
          · rw [if_pos hsc]
            unfold NotesInv
            rw [handleScreenshot_extraNotes]
            exact hst
          · rw [if_neg hsc]
            by_cases hd : (st.cur == some "下载链接") = true
            · rw [if_pos hd]
              unfold NotesInv
              rw [handleDownload_extraNotes]
              exact hst
            · rw [if_neg hd]
              by_cases he : (st.cur == some "额外信息") = true
              · rw [if_pos he]
                unfold NotesInv at hst ⊢
                show ((st.extraNotes.getD [] ++ [pyStrip raw]).all
                  fun e => pyStrip e != "") = true
                rw [List.all_append, hst]
                simp only [List.all_cons, List.all_nil, Bool.and_true, Bool.true_and]
                exact bne_iff_ne.mpr (by rw [pyStrip_idem]; exact hne)
              · rw [if_neg he]
                exact hst

/-- The invariant `NotesInv` is preserved over any scanned line list. -/
theorem foldl_notes :
    ∀ (lines : List String) (st : ScanState), NotesInv st →
      NotesInv (lines.foldl scanLine st) := by
  intro lines
  induction lines with
  | nil => intro st hst; exact hst
  | cons raw rest ih =>
    intro st hst
    rw [List.foldl_cons]
    exact ih (scanLine st raw) (scanLine_notes st raw hst)

/-- C10: every Record returned by a successful (non-fallback) parse has all
of its `extraNotes` entries non-empty after trimming: blank and comment
lines are skipped before the 额外信息 section handling, so a Record with a
blank extra-notes entry is never produced by the parser. -/
theorem c10_notes_nonblank (stem content : String) :
    ((extraEntries (parse_config_file stem (some content))).all
      fun e => pyStrip e != "") = true := by
  have hinv := foldl_notes (pySplitChar '\n' content) initState rfl
  unfold NotesInv at hinv
  unfold extraEntries parse_config_file
  dsimp only
  cases hx : ((pySplitChar '\n' content).foldl scanLine initState).extraNotes with
  | none => simp
  | some l =>
    rw [hx] at hinv
    simpa using hinv

/-- C9: under the 软件截图 (Screenshot-List) section, a stripped,
non-blank, non-comment, non-section line containing no `=` contributes
nothing — the scan state is returned unchanged, so no ScreenshotRef is
added; under 功能介绍 (Feature-List) the very same line is appended
verbatim (stripped) as a feature. -/
theorem c9_screenshot_line_dropped (st : ScanState) (raw : String)
    (h1 : pyStrip raw ≠ "")
    (h2 : pyStartsWith (pyStrip raw) "#" = false)
    (h3 : (pyStartsWith (pyStrip raw) "[" && pyEndsWith (pyStrip raw) "]") = false)
    (h4 : pyContainsChar '=' (pyStrip raw) = false) :
    (st.cur = some "软件截图" → scanLine st raw = st) ∧
    (st.cur = some "功能介绍" →
      scanLine st raw = { st with tempFeatures := st.tempFeatures ++ [pyStrip raw] }) := by
  have hbeq : (pyStrip raw == "") = false := beq_eq_false_iff_ne.mpr h1
  have hb : ¬((pyStrip raw == "" || pyStartsWith (pyStrip raw) "#") = true) := by
    simp [hbeq, h2]
  constructor
  · intro hc
    unfold scanLine
    rw [if_neg hb, if_neg (by simp [h3]), if_neg (by simp [hc]),
      if_neg (by simp [hc]), if_pos (by simp [hc])]
    unfold handleScreenshot
    rw [if_neg (by simp [h4])]
  · intro hc
    unfold scanLine
    rw [if_neg hb, if_neg (by simp [h3]), if_neg (by simp [hc]),
      if_pos (by simp [hc])]
    unfold handleFeature
    rw [if_neg (by simp [h4]), pyStrip_idem]

/-- C9 witnessed on the line `"just a line"`: dropped as a screenshot,
kept verbatim as a feature. -/
theorem c9_witness :
    scanLine { initState with cur := some "软件截图" } "just a line" =
      { initState with cur := some "软件截图" } ∧
    scanLine { initState with cur := some "功能介绍" } "just a line" =
      { initState with cur := some "功能介绍", tempFeatures := ["just a line"] } := by
  constructor
  · exact (c9_screenshot_line_dropped _ "just a line"
      (by decide) (by decide) (by decide) (by decide)).1 rfl
  · have h := (c9_screenshot_line_dropped
      { initState with cur := some "功能介绍" } "just a line"
      (by decide) (by decide) (by decide) (by decide)).2 rfl
    rw [h]
    rfl

theorem pyReplaceChar_length (a b : Char) (s : String) :
    (pyReplaceChar a b s).length = s.length := by
  show (s.data.map _).length = s.data.length
  rw [List.length_map]

theorem reSubBad_length (s : String) : (reSubBad s).length ≤ s.length := by
  show (s.data.filter _).length ≤ s.data.length
  exact List.length_filter_le _ _

/-- C3 counterexample: the three filename derivations do not agree on every
input.  On the title `"a:b"` the preview document's interpolated filename
(line 420 of `generate_html_embed`) keeps the colon that
`sanitize_filename` strips; on a 101-character title `get_software_title`
does not truncate while `sanitize_filename` does. -/
theorem c3_counterexample :
    previewGeneratedFilename { SoftwareInfo.empty with title := some "a:b" } ≠
      sanitize_filename "a:b" ++ ".html" ∧
    get_software_title { SoftwareInfo.empty with title := some longTitle } none ≠
      sanitize_filename longTitle := by
  constructor <;> decide

/-- C3 as amended: the derivations agree only on favourable titles.
`get_software_title` agrees with `sanitize_filename` on every non-empty
title of at most 100 characters (it performs the same stripping and space
replacement but omits the truncation); the preview document's interpolated
filename only replaces spaces, so it agrees with `sanitize_filename` only
when the title is within 100 characters and also free of the stripped
characters `\ / : * ? " < > |`. -/
theorem c3_amended :
    (∀ (t : String) (r : SoftwareInfo) (p : Option String),
        t ≠ "" → t.length ≤ 100 → r.title = some t →
        get_software_title r p = sanitize_filename t) ∧
    (∀ (t : String) (r : SoftwareInfo),
        t.length ≤ 100 → (t.data.all fun c => !(isBadFileChar c)) = true →
        r.title = some t →
        previewGeneratedFilename r = sanitize_filename t ++ ".html") := by
  have hlen : ∀ t : String, t.length ≤ 100 →
      ¬((pyReplaceChar ' ' '_' (reSubBad t)).length > 100) := by
    intro t ht
    rw [pyReplaceChar_length]
    have := reSubBad_length t
    omega
  have hsan : ∀ t : String, t.length ≤ 100 →
      sanitize_filename t = pyReplaceChar ' ' '_' (reSubBad t) := by
    intro t ht
    have hdef : sanitize_filename t =
        if (pyReplaceChar ' ' '_' (reSubBad t)).length > 100 then
          ⟨(pyReplaceChar ' ' '_' (reSubBad t)).data.take 100⟩
        else pyReplaceChar ' ' '_' (reSubBad t) := rfl
    rw [hdef, if_neg (hlen t ht)]
  constructor
  · intro t r p ht hl hr
    unfold get_software_title
    rw [hr]
    simp only [Option.getD_some]
    rw [if_pos (by simpa using bne_iff_ne.mpr ht), hsan t hl]
  · intro t r hl hgood hr
    unfold previewGeneratedFilename
    rw [hr]
    simp only [Option.getD_some]
    have hsub : reSubBad t = t := by
      apply String.ext
      show t.data.filter _ = t.data
      exact List.filter_eq_self.mpr (List.all_eq_true.mp hgood)
    rw [hsan t hl, hsub]

/-- C3 amended, witnessed on the title `"My App"` (short and free of the
stripped characters): all three derivations give `My_App`. -/
theorem c3_amended_witness :
    get_software_title { SoftwareInfo.empty with title := some "My App" } none =
      sanitize_filename "My App" ∧
    previewGeneratedFilename { SoftwareInfo.empty with title := some "My App" } =
      sanitize_filename "My App" ++ ".html" :=
  ⟨c3_amended.1 "My App" _ none (by decide) (by decide) rfl,
   c3_amended.2 "My App" _ (by decide) (by decide) rfl⟩

/-- C5: a description value `A||B||C` (three `|`-free pieces joined by the
two-character delimiter) parses to the ordered list of its stripped pieces,
and the introduction section of any Record carrying such a three-element
description renders exactly three paragraph blocks, in order, one per
entry. -/
theorem c5_description_three_paragraphs (a b c : String)
    (ha : '|' ∉ a.data) (hb : '|' ∉ b.data) (hc : '|' ∉ c.data) :
    parseDescriptionValue (a ++ "||" ++ b ++ "||" ++ c) =
      .list [pyStrip a, pyStrip b, pyStrip c] ∧
    (∀ r : SoftwareInfo, r.description = some (.list [a, b, c]) →
      renderIntro r = "<h3>软件介绍</h3>\n" ++ ("<p>" ++ a ++ "</p>\n") ++
        ("<p>" ++ b ++ "</p>\n") ++ ("<p>" ++ c ++ "</p>\n") ++ "\n") := by
  have hlit : ("||" : String).data = ['|', '|'] := rfl
  have hdata : (a ++ "||" ++ b ++ "||" ++ c).data =
      a.data ++ '|' :: '|' :: (b.data ++ '|' :: '|' :: c.data) := by
    simp only [String.data_append, hlit]
    simp
  constructor
  · unfold parseDescriptionValue
    rw [if_pos (by rw [hdata]; exact contains2Pipes_append _ _)]
    rw [hdata, splitDoublePipe_append a.data _ ha, splitDoublePipe_append b.data _ hb,
      splitDoublePipe_no_pipe c.data hc]
    rfl
  · intro r hr
    unfold renderIntro
    rw [hr]
    dsimp only [Option.getD_some]
    apply String.ext
    simp [String.join, String.data_append]

/-- C5 witnessed at the literal description value `"A||B||C"`. -/
theorem c5_witness :
    parseDescriptionValue ("A" ++ "||" ++ "B" ++ "||" ++ "C") =
      .list [pyStrip "A", pyStrip "B", pyStrip "C"] ∧
    renderIntro { SoftwareInfo.empty with description := some (.list ["A", "B", "C"]) } =
      "<h3>软件介绍</h3>\n" ++ ("<p>" ++ "A" ++ "</p>\n") ++ ("<p>" ++ "B" ++ "</p>\n") ++
      ("<p>" ++ "C" ++ "</p>\n") ++ "\n" :=
  ⟨(c5_description_three_paragraphs "A" "B" "C" (by decide) (by decide) (by decide)).1,
   (c5_description_three_paragraphs "A" "B" "C" (by decide) (by decide) (by decide)).2 _ rfl⟩

/-- C7: a Screenshot-List value of three pipe-separated parts parses to a
ScreenshotRef with that caption, attribution and url (each stripped); two
parts give caption and url; a single part (no pipes) gives the url alone;
and the renderer emits one image-embed short-code block carrying the
caption and (when non-empty) the attribution around an image tag whose
`src` is the url, the caption defaulting per 0-based index `i` to
`软件截图 (i+1)` ("Screenshot N", 1-based) when absent. -/
theorem c7_screenshots (cap attr url : String)
    (hcap : '|' ∉ cap.data) (hattr : '|' ∉ attr.data) (hurl : '|' ∉ url.data) :
    parseScreenshotValue (cap ++ "|" ++ attr ++ "|" ++ url) =
      ⟨some (pyStrip cap), some (pyStrip attr), pyStrip url⟩ ∧
    parseScreenshotValue (cap ++ "|" ++ url) =
      ⟨some (pyStrip cap), none, pyStrip url⟩ ∧
    parseScreenshotValue url = ⟨none, none, url⟩ ∧
    (∀ (c a u : String) (i : Nat), a ≠ "" →
      screenshotBlock i (.dict ⟨some c, some a, u⟩) =
        "[insertimg caption='" ++ c ++ "' attribution='" ++ a ++ "']" ++
        "<img src=\"" ++ u ++ "\" />" ++ "[/insertimg]\n") ∧
    (∀ (u : String) (i : Nat),
      screenshotBlock i (.dict ⟨none, none, u⟩) =
        "[insertimg caption='" ++ "软件截图 " ++ toString (i + 1) ++ "']" ++
        "<img src=\"" ++ u ++ "\" />" ++ "[/insertimg]\n") := by
  have hlit : ("|" : String).data = ['|'] := rfl
  refine ⟨?_, ?_, ?_, ?_, ?_⟩
  · have hdata : (cap ++ "|" ++ attr ++ "|" ++ url).data =
        cap.data ++ '|' :: (attr.data ++ '|' :: url.data) := by
      simp only [String.data_append, hlit]
      simp
    unfold parseScreenshotValue
    rw [if_pos (by unfold pyContainsChar; rw [hdata]; simp)]
    unfold pySplitChar
    rw [hdata, splitCharList_append '|' cap.data _ hcap,
      splitCharList_append '|' attr.data _ hattr, splitCharList_no_sep '|' url.data hurl]
    rfl
  · have hdata : (cap ++ "|" ++ url).data = cap.data ++ '|' :: url.data := by
      simp only [String.data_append, hlit]
      simp
    unfold parseScreenshotValue
    rw [if_pos (by unfold pyContainsChar; rw [hdata]; simp)]
    unfold pySplitChar
    rw [hdata, splitCharList_append '|' cap.data _ hcap,
      splitCharList_no_sep '|' url.data hurl]
    rfl
  · have hnc : ¬(pyContainsChar '|' url = true) := by
      intro hcon
      unfold pyContainsChar at hcon
      rw [List.any_eq_true] at hcon
      obtain ⟨x, hmem, hbeq⟩ := hcon
      have hx : x = '|' := beq_iff_eq.mp hbeq
      subst hx
      exact hurl hmem
    unfold parseScreenshotValue
    rw [if_neg hnc]
  · intro c a u i ha
    unfold screenshotBlock
    dsimp only [Option.getD_some]
    rw [if_pos (by simpa using bne_iff_ne.mpr ha)]
  · intro u i
    unfold screenshotBlock
    dsimp only
    rw [if_neg (by simp)]
    apply String.ext
    simp [String.data_append]

/-- C7 witnessed at the spec's example value `"Cap|Attr|http://x/y.png"`. -/
theorem c7_witness :
    parseScreenshotValue ("Cap" ++ "|" ++ "Attr" ++ "|" ++ "http://x/y.png") =
      ⟨some (pyStrip "Cap"), some (pyStrip "Attr"), pyStrip "http://x/y.png"⟩ ∧
    screenshotBlock 0 (.dict ⟨some "Cap", some "Attr", "http://x/y.png"⟩) =
      "[insertimg caption='" ++ "Cap" ++ "' attribution='" ++ "Attr" ++ "']" ++
      "<img src=\"" ++ "http://x/y.png" ++ "\" />" ++ "[/insertimg]\n" :=
  ⟨(c7_screenshots "Cap" "Attr" "http://x/y.png"
      (by decide) (by decide) (by decide)).1,
   (c7_screenshots "Cap" "Attr" "http://x/y.png"
      (by decide) (by decide) (by decide)).2.2.2.1 "Cap" "Attr" "http://x/y.png" 0
      (by decide)⟩

theorem listStartsWith_self_append (p r : List Char) :
    listStartsWith p (p ++ r) = true := by
  induction p with
  | nil => rfl
  | cons a t ih => simp [listStartsWith, ih]

/-- Every emitted link part begins with the link short-code opener. -/
theorem linkPart_startsWith (it : DownloadItem) :
    pyStartsWith (linkPart it) " [link" = true := by
  unfold linkPart pyStartsWith
  dsimp only
  split
  · simp [listStartsWith, String.data_append]
  · simp [listStartsWith, String.data_append]

/-- The download loop's parts, filtered down to link short-codes, are the
links themselves, one short-code per link, in order. -/
theorem downloadParts_filter :
    ∀ (links : List DownloadItem) (i : Nat),
      (downloadParts i links).filter (fun s => pyStartsWith s " [link") =
        links.map linkPart := by
  have hnl : pyStartsWith "\n" " [link" = false := rfl
  intro links
  induction links with
  | nil => intro i; rfl
  | cons it rest ih =>
    intro i
    by_cases hmod : (((i + 1) % 4 == 0) = true)
    · simp only [downloadParts, if_pos hmod]
      simp [List.filter_cons, linkPart_startsWith, hnl, ih (i + 1)]
    · simp only [downloadParts, if_neg hmod]
      simp [List.filter_cons, linkPart_startsWith, ih (i + 1)]

/-- C6: the downloads block contains exactly one link short-code per
download link, in order (first conjunct: filtering the loop's emitted
parts down to link short-codes gives the links in order); and for five
links with no codes, the block carries five link short-codes with one
inserted line break after the 4th link and one trailing line break after
the 5th, inside the `[downloads]` wrapper (second conjunct). -/
theorem c6_download_batches :
    (∀ (i : Nat) (links : List DownloadItem),
        (downloadParts i links).filter (fun s => pyStartsWith s " [link") =
          links.map linkPart) ∧
    (∀ (u1 u2 u3 u4 u5 : String) (r : SoftwareInfo),
        r.downloadLinks = some [.dict ⟨u1, ""⟩, .dict ⟨u2, ""⟩, .dict ⟨u3, ""⟩,
          .dict ⟨u4, ""⟩, .dict ⟨u5, ""⟩] →
        renderDownloads r =
          "<h3>软件下载</h3>\n" ++ "[downloads]\n" ++
          (" [link url=\"" ++ u1 ++ "\"][/link]") ++ (" [link url=\"" ++ u2 ++ "\"][/link]") ++
          (" [link url=\"" ++ u3 ++ "\"][/link]") ++ (" [link url=\"" ++ u4 ++ "\"][/link]") ++
          "\n" ++ (" [link url=\"" ++ u5 ++ "\"][/link]") ++ "\n" ++ "[/downloads]\n") := by
  constructor
  · intro i links
    exact downloadParts_filter links i
  · intro u1 u2 u3 u4 u5 r hr
    unfold renderDownloads
    rw [hr]
    dsimp only [Option.getD_some]
    rw [if_neg (by simp)]
    apply String.ext
    simp [downloadParts, linkPart, downloadUrlCode, String.join, String.data_append]

/-- C6 witnessed at the concrete links `u1..u5`. -/
theorem c6_witness :
    renderDownloads { SoftwareInfo.empty with downloadLinks := some [DownloadItem.dict ⟨"u1", ""⟩, DownloadItem.dict ⟨"u2", ""⟩, DownloadItem.dict ⟨"u3", ""⟩, DownloadItem.dict ⟨"u4", ""⟩, DownloadItem.dict ⟨"u5", ""⟩] } =
      "<h3>软件下载</h3>\n" ++ "[downloads]\n" ++
      (" [link url=\"" ++ "u1" ++ "\"][/link]") ++ (" [link url=\"" ++ "u2" ++ "\"][/link]") ++
      (" [link url=\"" ++ "u3" ++ "\"][/link]") ++ (" [link url=\"" ++ "u4" ++ "\"][/link]") ++
      "\n" ++ (" [link url=\"" ++ "u5" ++ "\"][/link]") ++ "\n" ++ "[/downloads]\n" :=
  c6_download_batches.2 "u1" "u2" "u3" "u4" "u5" _ rfl
